import Mathlib

/-!
Verification of the attendance evaluation engine of the
mindsfire-employees repository.

The engine lives in `src/pages/index.tsx`:
  * `getStatus`                — the status classifier,
  * the auto-close / active-session / retention steps of `loadRecords`
                              — the session normalizer,
  * `checkAttendanceCompliance` — the compliance monitor.

JavaScript `Date` values are modelled by `JSDate`: either an invalid date
(whose time value is NaN) or a valid instant given by a local calendar-day
index and the milliseconds elapsed since local midnight.  With a fixed
local offset, `getTime` ordering is the lexicographic order on
(day, msOfDay), `getHours`/`getMinutes` read the time of day, and
`setHours(0,0,0,0)` / `setHours(23,59,59,999)` keep the day and reset the
milliseconds.  NaN-valued numbers are modelled by `Option ℤ` with `none`
for NaN; every comparison against NaN is false, as in JavaScript.
-/

inductive JSDate where
  | invalid : JSDate
  | valid : (day : ℤ) → (msOfDay : ℕ) → JSDate
deriving DecidableEq, Repr

namespace JSDate

/-- `Date.prototype.getTime`: NaN (here `none`) for an invalid date. -/
def getTime : JSDate → Option ℤ
  | .invalid => none
  | .valid d ms => some (d * 86400000 + ms)

/-- `Date.prototype.getHours` (local). -/
def getHours : JSDate → Option ℤ
  | .invalid => none
  | .valid _ ms => some ((ms / 3600000 : ℕ) : ℤ)

/-- `Date.prototype.getMinutes` (local). -/
def getMinutes : JSDate → Option ℤ
  | .invalid => none
  | .valid _ ms => some ((ms % 3600000 / 60000 : ℕ) : ℤ)

/-- `d.setHours(0, 0, 0, 0)` on a copy, as in `startOfDay` of
`src/utils/dateUtils.ts` and the inlined copies in `index.tsx`. -/
def atStartOfDay : JSDate → JSDate
  | .invalid => .invalid
  | .valid d _ => .valid d 0

/-- `d.setHours(23, 59, 59, 999)` on a copy, as in `endOfDay` and the
auto-close step of `loadRecords`. -/
def atEndOfDay : JSDate → JSDate
  | .invalid => .invalid
  | .valid d _ => .valid d 86399999

end JSDate

/-- JavaScript `<` on possibly-NaN numbers: any comparison with NaN is false. -/
def jsLt : Option ℤ → Option ℤ → Bool
  | some a, some b => a < b
  | _, _ => false

/-- JavaScript `<=` on possibly-NaN numbers. -/
def jsLe : Option ℤ → Option ℤ → Bool
  | some a, some b => a ≤ b
  | _, _ => false

/-- JavaScript `>` on possibly-NaN numbers. -/
def jsGt : Option ℤ → Option ℤ → Bool
  | some a, some b => b < a
  | _, _ => false

/-- JavaScript `>=` on possibly-NaN numbers. -/
def jsGe : Option ℤ → Option ℤ → Bool
  | some a, some b => b ≤ a
  | _, _ => false

/-- JavaScript `===` on possibly-NaN numbers (`NaN === NaN` is false). -/
def jsEq : Option ℤ → Option ℤ → Bool
  | some a, some b => a = b
  | _, _ => false

/- Configuration constants of `src/pages/index.tsx`. -/

def OFFICE_START_HOUR : ℤ := 10
def OFFICE_END_HOUR : ℤ := 19
def GRACE_PERIOD_MINUTES : ℤ := 0
def RETENTION_DAYS : ℤ := 90

/-- Entry-side tag list of `getStatus` (the first `if`/`else if` chain,
which pushes exactly one entry tag). -/
def entryStatus (loginHour loginMinute : Option ℤ) : List String :=
  if jsLt loginHour (some 9) || (jsEq loginHour (some 9) && jsLt loginMinute (some 30)) then
    ["Early Entry"]
  else if jsEq loginHour (some 9) && jsGe loginMinute (some 30) then
    ["Good Entry"]
  else if jsEq loginHour (some OFFICE_START_HOUR) && jsLe loginMinute (some GRACE_PERIOD_MINUTES) then
    ["Good Entry"]
  else
    ["Late"]

/-- Exit-side tag list of `getStatus` (the `if (logoutTime)` block; a null
logout contributes nothing, an invalid `Date` is truthy and its NaN
hour/minute fail both comparisons, falling into the `Overtime` branch). -/
def exitStatus (logoutTime : Option JSDate) : List String :=
  match logoutTime with
  | none => []
  | some lo =>
    if jsLt lo.getHours (some OFFICE_END_HOUR) then
      ["Early Leave"]
    else if jsEq lo.getHours (some OFFICE_END_HOUR) && jsLe lo.getMinutes (some 30) then
      ["Good Exit"]
    else
      ["Overtime"]

/-- `getStatus` of `src/pages/index.tsx`.  The guard
`!loginTime || !(loginTime instanceof Date) || isNaN(loginTime.getTime())`
is modelled by `none` (null/undefined) and by an invalid date. -/
def getStatus (loginTime : Option JSDate) (logoutTime : Option JSDate) : List String :=
  match loginTime with
  | none => ["Invalid Time"]
  | some lt =>
    if lt.getTime.isNone then ["Invalid Time"]
    else
      let status := entryStatus lt.getHours lt.getMinutes ++ exitStatus logoutTime
      if status.length == 0 && logoutTime.isSome then ["On Time"]
      else if status.length == 0 then ["In Progress"]
      else status

example : getStatus (some (.valid 0 (9 * 3600000 + 45 * 60000)))
    (some (.valid 0 (19 * 3600000 + 15 * 60000))) = ["Good Entry", "Good Exit"] := by decide

example : getStatus (some (.valid 0 (10 * 3600000 + 5 * 60000)))
    (some (.valid 0 (18 * 3600000 + 50 * 60000))) = ["Late", "Early Leave"] := by decide

example : getStatus (some (.valid 0 (9 * 3600000))) (some (.valid 0 86399999)) =
    ["Early Entry", "Overtime"] := by decide

example : getStatus (some (.valid 0 (10 * 3600000))) (some (.valid 0 (9 * 3600000))) =
    ["Good Entry", "Early Leave"] := by decide

example : getStatus (some .invalid) none = ["Invalid Time"] := by decide

example : getStatus (some (.valid 0 (11 * 3600000))) (some .invalid) =
    ["Late", "Overtime"] := by decide

/-!
## Session Normalizer

`loadRecords` in `src/pages/index.tsx` fetches the rows ordered descending
by `login_time`, then (a) auto-closes unclosed sessions from previous days
at 23:59:59.999 of their login day, (b) finds the active session (`find`
over the list: the first unclosed record whose login day equals today),
(c) drops records whose `loginTime` is not after `now - RETENTION_DAYS`
days, and (d) stores the result sorted descending by `loginTime.getTime()`.
The current instant (`new Date()`) is injected here as a day index
`asOfDay` plus milliseconds since midnight `asOfMs`.
-/

structure AttendanceRecord where
  id : String
  name : String
  employeeId : String
  loginTime : JSDate
  logoutTime : Option JSDate
deriving DecidableEq, Repr

structure NormalizedResult where
  sessions : List AttendanceRecord
  activeSessionId : Option String
deriving DecidableEq, Repr

/-- The map body of the auto-close step: an unclosed record whose login
day (at midnight) is before `today` gets `logoutTime` set to 23:59:59.999
of its login day; everything else passes through unchanged. -/
def autoCloseRecord (todayTime : Option ℤ) (r : AttendanceRecord) : AttendanceRecord :=
  match r.logoutTime with
  | some _ => r
  | none =>
    if jsLt r.loginTime.atStartOfDay.getTime todayTime then
      { r with logoutTime := some r.loginTime.atEndOfDay }
    else r

/-- The `find` predicate for the active session: unclosed, and the login
day's midnight has the same `getTime` as today's midnight
(`recordDate.getTime() === currentToday.getTime()`). -/
def isActiveToday (todayTime : Option ℤ) (r : AttendanceRecord) : Bool :=
  match r.logoutTime with
  | some _ => false
  | none => jsEq r.loginTime.atStartOfDay.getTime todayTime

/-- One insertion of the descending-by-login-time sort
(`(a, b) => b.loginTime.getTime() - a.loginTime.getTime()`); records with
an invalid `loginTime` never reach the sort because the retention filter
drops them (a NaN comparison is false). -/
def insertByLoginDesc (a : AttendanceRecord) : List AttendanceRecord → List AttendanceRecord
  | [] => [a]
  | b :: rest =>
    if jsGt a.loginTime.getTime b.loginTime.getTime then a :: b :: rest
    else b :: insertByLoginDesc a rest

def sortByLoginDesc : List AttendanceRecord → List AttendanceRecord
  | [] => []
  | a :: rest => insertByLoginDesc a (sortByLoginDesc rest)

/-- The normalizer core of `loadRecords` (lines 302–377 of
`src/pages/index.tsx`): auto-close, active-session determination,
retention filter, descending sort. -/
def loadRecordsCore (formattedRecords : List AttendanceRecord) (asOfDay : ℤ) (asOfMs : ℕ) :
    NormalizedResult :=
  let today : JSDate := .valid asOfDay 0
  let autoClosedRecords := formattedRecords.map (autoCloseRecord today.getTime)
  let activeSession := autoClosedRecords.find? (isActiveToday today.getTime)
  let cutoffDate : JSDate := .valid (asOfDay - RETENTION_DAYS) asOfMs
  let validRecords :=
    autoClosedRecords.filter (fun r => jsGt r.loginTime.getTime cutoffDate.getTime)
  { sessions := sortByLoginDesc validRecords
    activeSessionId := activeSession.map (fun r => r.id) }

/-!
## Compliance Monitor

`checkAttendanceCompliance` in `src/pages/index.tsx`: collects issue
strings (unclosed previous-day sessions, ≥ 3 late entries in the trailing
7 days, ≥ 3 early leaves in the trailing 7 days) and, when any exist,
returns a single warning of type `excessive_late` whose message joins all
the issues.
-/

inductive WarningType where
  | unclosed_session
  | excessive_late
  | excessive_early_leave
deriving DecidableEq, Repr

structure ComplianceWarning where
  type : WarningType
  message : String
deriving DecidableEq, Repr

/-- The filter predicate for unclosed previous-day sessions. -/
def isUnclosedOld (todayTime : Option ℤ) (r : AttendanceRecord) : Bool :=
  match r.logoutTime with
  | some _ => false
  | none => jsLt r.loginTime.atStartOfDay.getTime todayTime

/-- `checkAttendanceCompliance` of `src/pages/index.tsx`; `asOfDay` is the
day index of `new Date()` at the time of the call. -/
def checkAttendanceCompliance (userRecords : List AttendanceRecord) (userName : String)
    (asOfDay : ℤ) : List ComplianceWarning :=
  let today : JSDate := .valid asOfDay 0
  let sevenDaysAgo : JSDate := .valid (asOfDay - 7) 0
  let unclosedOldSessions := userRecords.filter (isUnclosedOld today.getTime)
  let issuesUnclosed : List String :=
    if unclosedOldSessions.length > 0 then
      [toString unclosedOldSessions.length ++ " unclosed session(s)"]
    else []
  let recentRecords := userRecords.filter (fun r => jsGe r.loginTime.getTime sevenDaysAgo.getTime)
  let lateCount :=
    (recentRecords.filter (fun r => (getStatus (some r.loginTime) r.logoutTime).contains "Late")).length
  let issuesLate : List String :=
    if lateCount ≥ 3 then ["late " ++ toString lateCount ++ " times this week"] else []
  let earlyLeaveCount :=
    (recentRecords.filter
      (fun r => (getStatus (some r.loginTime) r.logoutTime).contains "Early Leave")).length
  let issuesEarly : List String :=
    if earlyLeaveCount ≥ 3 then ["left early " ++ toString earlyLeaveCount ++ " times this week"] else []
  let issues := issuesUnclosed ++ issuesLate ++ issuesEarly
  if issues.length > 0 then
    [{ type := WarningType.excessive_late
       message := "Hi " ++ userName ++ ", you have " ++ String.intercalate ", " issues ++
         " - please maintain proper attendance." }]
  else []

/-- A record forgotten open yesterday (login 09:00 on day 99, no logout). -/
def staleOpenRecord : AttendanceRecord :=
  ⟨"s1", "n", "e", .valid 99 (9 * 3600000), none⟩

/-- `staleOpenRecord` after the auto-close of the normalizer. -/
def staleClosedRecord : AttendanceRecord :=
  ⟨"s1", "n", "e", .valid 99 (9 * 3600000), some (.valid 99 86399999)⟩

example : loadRecordsCore [staleOpenRecord] 100 (9 * 3600000) =
    ⟨[staleClosedRecord], none⟩ := by decide

/-- Three sessions on days 9, 8, 7 with login 11:00 (Late) and logout
20:00 (Overtime), used as a concrete compliance input with `asOf` day 10. -/
def lateWeekRecords : List AttendanceRecord :=
  [⟨"a", "n", "e", .valid 9 (11 * 3600000), some (.valid 9 (20 * 3600000))⟩,
   ⟨"b", "n", "e", .valid 8 (11 * 3600000), some (.valid 8 (20 * 3600000))⟩,
   ⟨"c", "n", "e", .valid 7 (11 * 3600000), some (.valid 7 (20 * 3600000))⟩]

example : checkAttendanceCompliance lateWeekRecords "Bob" 10 =
    [⟨WarningType.excessive_late,
      "Hi Bob, you have late 3 times this week - please maintain proper attendance."⟩] := by
  decide

/-- An open session of day 0 logged in at 09:00 (id "A"). -/
def morningOpenRecord : AttendanceRecord := ⟨"A", "n", "e", .valid 0 (9 * 3600000), none⟩

/-- An open session of day 0 logged in at 10:00 (id "B"): the later of the
two open sessions. -/
def laterOpenRecord : AttendanceRecord := ⟨"B", "n", "e", .valid 0 (10 * 3600000), none⟩

/-- Raw rows as the query delivers them: ordered descending by login time,
with two sessions of the same subject still open on asOf's day (day 0). -/
def twoOpenToday : List AttendanceRecord := [laterOpenRecord, morningOpenRecord]

/-- Pairwise order of rows as delivered by the query
(`order('login_time', { ascending: false })`): the later row's login time
is at most the earlier row's.  Pairs involving an invalid date are
unconstrained. -/
def loginDescOrder (a b : AttendanceRecord) : Bool :=
  match a.loginTime.getTime, b.loginTime.getTime with
  | some ta, some tb => tb ≤ ta
  | _, _ => true

/-!
## Structural lemmas about the classifier
-/

theorem entryStatus_cases (h m : Option ℤ) :
    entryStatus h m = ["Early Entry"] ∨ entryStatus h m = ["Good Entry"] ∨
      entryStatus h m = ["Late"] := by
  unfold entryStatus
  split_ifs <;> simp

theorem exitStatus_some_cases (lo : JSDate) :
    exitStatus (some lo) = ["Early Leave"] ∨ exitStatus (some lo) = ["Good Exit"] ∨
      exitStatus (some lo) = ["Overtime"] := by
  simp only [exitStatus]
  split_ifs <;> simp

/-- On a valid login the classifier is the entry tag list followed by the
exit tag list; the `On Time` / `In Progress` fallbacks are dead because
the entry chain always pushes exactly one tag. -/
theorem getStatus_valid (d : ℤ) (ms : ℕ) (lo : Option JSDate) :
    getStatus (some (.valid d ms)) lo =
      entryStatus (JSDate.valid d ms).getHours (JSDate.valid d ms).getMinutes ++ exitStatus lo := by
  rcases entryStatus_cases (JSDate.valid d ms).getHours (JSDate.valid d ms).getMinutes with
    he | he | he <;>
  simp [getStatus, JSDate.getTime, he]

theorem getHours_hm (d : ℤ) (h m : ℕ) (hm : m < 60) :
    (JSDate.valid d (h * 3600000 + m * 60000)).getHours = some (h : ℤ) := by
  have : (h * 3600000 + m * 60000) / 3600000 = h := by omega
  simp [JSDate.getHours, this]

theorem getMinutes_hm (d : ℤ) (h m : ℕ) (hm : m < 60) :
    (JSDate.valid d (h * 3600000 + m * 60000)).getMinutes = some (m : ℤ) := by
  have : (h * 3600000 + m * 60000) % 3600000 / 60000 = m := by omega
  simp [JSDate.getMinutes, this]

/-- The entry chain yields `Late` exactly when the login hour/minute pair
is lexicographically past (10, 0). -/
theorem entryStatus_late_iff (a b : ℕ) :
    entryStatus (some (a : ℤ)) (some (b : ℤ)) = ["Late"] ↔
      (10 ≤ a ∧ ¬(a = 10 ∧ b = 0)) := by
  simp only [entryStatus, jsLt, jsEq, jsGe, jsLe, OFFICE_START_HOUR, GRACE_PERIOD_MINUTES]
  split_ifs with h1 h2 h3
  · simp only [Bool.or_eq_true, Bool.and_eq_true, decide_eq_true_eq] at h1
    constructor
    · intro hx; simp at hx
    · rintro ⟨ha, -⟩; exfalso; omega
  · simp only [Bool.and_eq_true, decide_eq_true_eq] at h2
    constructor
    · intro hx; simp at hx
    · rintro ⟨ha, -⟩; exfalso; omega
  · simp only [Bool.and_eq_true, decide_eq_true_eq] at h3
    constructor
    · intro hx; simp at hx
    · rintro ⟨-, hne⟩; exact absurd ⟨by omega, by omega⟩ hne
  · simp only [Bool.or_eq_true, Bool.and_eq_true, decide_eq_true_eq] at h1 h2 h3
    constructor
    · intro _; exact ⟨by omega, fun hc => h3 ⟨by omega, by omega⟩⟩
    · intro _; rfl

/-- `Late` is produced exactly when the login's time of day is past
10:00 at hour/minute granularity: the hour is at least 10 and the
(hour, minute) pair is not exactly (10, 0). -/
theorem late_mem_iff (d : ℤ) (ms : ℕ) (lo : Option JSDate) :
    "Late" ∈ getStatus (some (.valid d ms)) lo ↔
      (10 ≤ ms / 3600000 ∧ ¬(ms / 3600000 = 10 ∧ ms % 3600000 / 60000 = 0)) := by
  rw [getStatus_valid]
  have hexit : "Late" ∉ exitStatus lo := by
    match lo with
    | none => simp [exitStatus]
    | some l =>
      rcases exitStatus_some_cases l with hx | hx | hx <;> simp [hx]
  have hentry : "Late" ∈ entryStatus (JSDate.valid d ms).getHours (JSDate.valid d ms).getMinutes ↔
      entryStatus (JSDate.valid d ms).getHours (JSDate.valid d ms).getMinutes = ["Late"] := by
    rcases entryStatus_cases (JSDate.valid d ms).getHours (JSDate.valid d ms).getMinutes with
      hx | hx | hx <;> simp [hx]
  rw [List.mem_append, or_iff_left hexit, hentry]
  simpa only [JSDate.getHours, JSDate.getMinutes] using
    entryStatus_late_iff (ms / 3600000) (ms % 3600000 / 60000)

theorem exitStatus_cases (lo : Option JSDate) :
    exitStatus lo = [] ∨ exitStatus lo = ["Early Leave"] ∨ exitStatus lo = ["Good Exit"] ∨
      exitStatus lo = ["Overtime"] := by
  match lo with
  | none => exact Or.inl rfl
  | some l => exact Or.inr (exitStatus_some_cases l)

/-- At hour/minute granularity the entry chain realises the two-tier rule:
before 09:30 early, 09:30–10:00 inclusive good, later late. -/
theorem entryStatus_hm_spec (a b : ℕ) (hb : b < 60) :
    entryStatus (some (a : ℤ)) (some (b : ℤ)) =
      (if 60 * a + b < 570 then ["Early Entry"]
       else if 60 * a + b ≤ 600 then ["Good Entry"]
       else ["Late"]) := by
  simp only [entryStatus, jsLt, jsEq, jsGe, jsLe, OFFICE_START_HOUR, GRACE_PERIOD_MINUTES]
  split_ifs <;>
    first
      | rfl
      | (exfalso
         simp only [Bool.or_eq_true, Bool.and_eq_true, decide_eq_true_eq] at *
         omega)

/-- At hour/minute granularity the exit chain realises: before 19:00 early
leave, 19:00–19:30 inclusive good exit, later overtime. -/
theorem exitStatus_hm_spec (d : ℤ) (c e : ℕ) (he : e < 60) :
    exitStatus (some (.valid d (c * 3600000 + e * 60000))) =
      (if 60 * c + e < 1140 then ["Early Leave"]
       else if 60 * c + e ≤ 1170 then ["Good Exit"]
       else ["Overtime"]) := by
  simp only [exitStatus, getHours_hm d c e he, getMinutes_hm d c e he, jsLt, jsEq, jsLe,
    OFFICE_END_HOUR]
  split_ifs <;>
    first
      | rfl
      | (exfalso
         simp only [Bool.and_eq_true, decide_eq_true_eq] at *
         omega)

/-!
## Claim theorems: the classifier
-/

/-- C1 counterexample: with login 10:00 and logout 09:00 of the same day
(logout strictly before login), `getStatus` does not stop at the entry
tag: it returns ["Good Entry", "Early Leave"], a two-element list with an
exit-side tag, and surfaces no anomaly. -/
theorem getStatus_logout_before_login_counterexample :
    jsLt (JSDate.valid 0 (9 * 3600000)).getTime (JSDate.valid 0 (10 * 3600000)).getTime = true ∧
    getStatus (some (.valid 0 (10 * 3600000))) (some (.valid 0 (9 * 3600000))) =
      ["Good Entry", "Early Leave"] ∧
    (getStatus (some (.valid 0 (10 * 3600000))) (some (.valid 0 (9 * 3600000)))).length ≠ 1 := by
  decide

/-- C1 (amended): for every session whose `logoutTime` is present, valid
and strictly earlier than its `loginTime`, `getStatus` still appends an
exit-side tag, computed from the logout's hour and minute exactly as for a
well-ordered logout; the invalid ordering is never compared or surfaced. -/
theorem getStatus_logout_before_login_appends_exit_tag
    (dLogin dLogout : ℤ) (msLogin msLogout : ℕ)
    (hlt : jsLt (JSDate.valid dLogout msLogout).getTime
      (JSDate.valid dLogin msLogin).getTime = true) :
    getStatus (some (.valid dLogin msLogin)) (some (.valid dLogout msLogout)) =
      getStatus (some (.valid dLogin msLogin)) none ++
        exitStatus (some (.valid dLogout msLogout)) ∧
    exitStatus (some (.valid dLogout msLogout)) ≠ [] := by
  constructor
  · rw [getStatus_valid, getStatus_valid]
    simp [exitStatus]
  · rcases exitStatus_some_cases (.valid dLogout msLogout) with hx | hx | hx <;> simp [hx]

/-- C1 witness: the amended theorem at login 10:00, logout 09:00. -/
theorem getStatus_logout_before_login_appends_exit_tag_witness :
    getStatus (some (.valid 0 (10 * 3600000))) (some (.valid 0 (9 * 3600000))) =
      getStatus (some (.valid 0 (10 * 3600000))) none ++
        exitStatus (some (.valid 0 (9 * 3600000))) ∧
    exitStatus (some (.valid 0 (9 * 3600000))) ≠ [] :=
  getStatus_logout_before_login_appends_exit_tag 0 0 (10 * 3600000) (9 * 3600000) (by decide)

/-- C2 counterexample: login 09:45, logout 19:15 does not classify as
[GoodEntry, Overtime] — 19:15 lies in the 19:00–19:30 good-exit window. -/
theorem scenario1_counterexample :
    getStatus (some (.valid 0 (9 * 3600000 + 45 * 60000)))
      (some (.valid 0 (19 * 3600000 + 15 * 60000))) ≠ ["Good Entry", "Overtime"] := by
  decide

/-- C2 (amended): with office hours 10:00–19:00 and grace 0, login 09:45
and logout 19:15 classify as exactly ["Good Entry", "Good Exit"]. -/
theorem scenario1_good_exit :
    getStatus (some (.valid 0 (9 * 3600000 + 45 * 60000)))
      (some (.valid 0 (19 * 3600000 + 15 * 60000))) = ["Good Entry", "Good Exit"] := by
  decide

/-- C6: for a valid login and a logout at or after it (hour/minute
granularity, same day), the classifier returns exactly the entry tag given
by the windows [before 09:30 → Early Entry, 09:30–10:00 → Good Entry,
after 10:00 → Late] followed by the exit tag given by the windows
[before 19:00 → Early Leave, 19:00–19:30 → Good Exit, after → Overtime]. -/
theorem getStatus_windows (day : ℤ) (lh lm oh om : ℕ)
    (hlh : lh < 24) (hlm : lm < 60) (hoh : oh < 24) (hom : om < 60)
    (horder : 60 * lh + lm ≤ 60 * oh + om) :
    getStatus (some (.valid day (lh * 3600000 + lm * 60000)))
        (some (.valid day (oh * 3600000 + om * 60000))) =
      [if 60 * lh + lm < 570 then "Early Entry"
       else if 60 * lh + lm ≤ 600 then "Good Entry" else "Late",
       if 60 * oh + om < 1140 then "Early Leave"
       else if 60 * oh + om ≤ 1170 then "Good Exit" else "Overtime"] := by
  rw [getStatus_valid, getHours_hm _ _ _ hlm, getMinutes_hm _ _ _ hlm,
    entryStatus_hm_spec _ _ hlm, exitStatus_hm_spec _ _ _ hom]
  split_ifs <;> rfl

/-- C6 witness: login 10:05 with logout 18:50 yields exactly
["Late", "Early Leave"]. -/
theorem getStatus_windows_witness :
    getStatus (some (.valid 0 (10 * 3600000 + 5 * 60000)))
      (some (.valid 0 (18 * 3600000 + 50 * 60000))) = ["Late", "Early Leave"] :=
  (getStatus_windows 0 10 5 18 50 (by decide) (by decide) (by decide) (by decide)
    (by decide)).trans (by decide)

/-- C7: `getStatus` never returns an empty list when the login is a valid
instant, and it returns exactly ["Invalid Time"] if and only if the login
is missing or an invalid date. -/
theorem getStatus_totality (loginTime logoutTime : Option JSDate) :
    ((∃ d ms, loginTime = some (.valid d ms)) → getStatus loginTime logoutTime ≠ []) ∧
    (getStatus loginTime logoutTime = ["Invalid Time"] ↔
      ¬ ∃ d ms, loginTime = some (.valid d ms)) := by
  match loginTime with
  | none =>
    refine ⟨fun h => ?_, ?_⟩
    · obtain ⟨d, ms, hd⟩ := h
      cases hd
    · simp [getStatus]
  | some .invalid =>
    refine ⟨fun h => ?_, ?_⟩
    · obtain ⟨d, ms, hd⟩ := h
      cases Option.some.inj hd
    · constructor
      · rintro - ⟨d, ms, hd⟩
        cases Option.some.inj hd
      · intro _
        simp [getStatus, JSDate.getTime]
  | some (.valid d ms) =>
    have hne : getStatus (some (.valid d ms)) logoutTime ≠ ["Invalid Time"] ∧
        getStatus (some (.valid d ms)) logoutTime ≠ [] := by
      rw [getStatus_valid]
      rcases entryStatus_cases (JSDate.valid d ms).getHours (JSDate.valid d ms).getMinutes with
        he | he | he <;>
      rcases exitStatus_cases logoutTime with hx | hx | hx | hx <;>
      simp [he, hx]
    refine ⟨fun _ => hne.2, ?_⟩
    constructor
    · intro h
      exact absurd h hne.1
    · intro h
      exact absurd ⟨d, ms, rfl⟩ h

/-- C7 witness: applied at a valid 09:45 login with no logout. -/
theorem getStatus_totality_witness :
    getStatus (some (.valid 0 (9 * 3600000 + 45 * 60000))) none ≠ [] :=
  (getStatus_totality (some (.valid 0 (9 * 3600000 + 45 * 60000))) none).1
    ⟨0, 9 * 3600000 + 45 * 60000, rfl⟩

/-- C9 counterexample: session B logs in day 0 at 11:00 and is Late;
session A logs in a day later at 09:00, so A's login instant is strictly
later than B's (by far more than the 0-minute grace period), yet A is not
classified Late. -/
theorem late_monotone_counterexample :
    "Late" ∈ getStatus (some (.valid 0 (11 * 3600000))) none ∧
    jsLt (JSDate.valid 0 (11 * 3600000)).getTime (JSDate.valid 1 (9 * 3600000)).getTime = true ∧
    "Late" ∉ getStatus (some (.valid 1 (9 * 3600000))) none := by
  decide

/-- C9 (amended): lateness is monotone in the login's time of day, not in
the absolute login instant: if B is classified Late and A's milliseconds
since local midnight are at least B's, then A is classified Late, for any
days and any logout values. -/
theorem late_monotone_in_time_of_day (dA dB : ℤ) (msA msB : ℕ)
    (loA loB : Option JSDate)
    (hB : "Late" ∈ getStatus (some (.valid dB msB)) loB)
    (hle : msB ≤ msA) :
    "Late" ∈ getStatus (some (.valid dA msA)) loA := by
  rw [late_mem_iff] at hB ⊢
  omega

/-- C9 witness: the amended theorem at B = 11:00 Late, A = 12:00 of
another day. -/
theorem late_monotone_in_time_of_day_witness :
    "Late" ∈ getStatus (some (.valid 5 (12 * 3600000))) none :=
  late_monotone_in_time_of_day 5 0 (12 * 3600000) (11 * 3600000) none none
    (by decide) (by decide)

/-- C10: a valid login together with a present but invalid logout (NaN
time value) is not rejected as Invalid Time: the entry tag is computed as
for an open session and the NaN hour comparisons fall through to the
Overtime branch, appending exactly "Overtime". -/
theorem getStatus_invalid_logout (d : ℤ) (ms : ℕ) :
    getStatus (some (.valid d ms)) (some .invalid) =
      getStatus (some (.valid d ms)) none ++ ["Overtime"] ∧
    getStatus (some (.valid d ms)) (some .invalid) ≠ ["Invalid Time"] := by
  have hx : exitStatus (some .invalid) = ["Overtime"] := by decide
  constructor
  · rw [getStatus_valid, getStatus_valid, hx]
    simp [exitStatus]
  · rw [getStatus_valid, hx]
    rcases entryStatus_cases (JSDate.valid d ms).getHours (JSDate.valid d ms).getMinutes with
      he | he | he <;> simp [he]

/-!
## Structural lemmas about the normalizer
-/

theorem mem_insertByLoginDesc {a x : AttendanceRecord} {l : List AttendanceRecord} :
    a ∈ insertByLoginDesc x l ↔ a = x ∨ a ∈ l := by
  induction l with
  | nil => simp [insertByLoginDesc]
  | cons b t ih =>
    simp only [insertByLoginDesc]
    split_ifs <;> simp [ih] <;> tauto

theorem mem_sortByLoginDesc {a : AttendanceRecord} {l : List AttendanceRecord} :
    a ∈ sortByLoginDesc l ↔ a ∈ l := by
  induction l with
  | nil => simp [sortByLoginDesc]
  | cons b t ih => simp [sortByLoginDesc, mem_insertByLoginDesc, ih]

theorem jsLt_none_left (t : Option ℤ) : jsLt none t = false := by cases t <;> rfl

theorem jsEq_none_left (t : Option ℤ) : jsEq none t = false := by cases t <;> rfl

/-- The auto-close step never creates or destroys an active-today session:
a record it closes has a login day strictly before today, which fails the
equality test, and any other record passes through unchanged. -/
theorem isActiveToday_autoCloseRecord (t : Option ℤ) (r : AttendanceRecord) :
    isActiveToday t (autoCloseRecord t r) = isActiveToday t r := by
  cases hlo : r.logoutTime with
  | some v => simp [autoCloseRecord, isActiveToday, hlo]
  | none =>
    simp only [autoCloseRecord, isActiveToday, hlo]
    split_ifs with h
    · have hne : jsEq r.loginTime.atStartOfDay.getTime t = false := by
        cases hs : r.loginTime.atStartOfDay.getTime with
        | none => exact jsEq_none_left t
        | some x =>
          rw [hs] at h
          cases t with
          | none => cases h
          | some y =>
            simp only [jsLt, decide_eq_true_eq] at h
            simp only [jsEq, decide_eq_false_iff_not]
            omega
      simp [hne]
    · simp [hlo]

/-- A record that tests active today is left unchanged by auto-close. -/
theorem autoCloseRecord_of_active (t : Option ℤ) (r : AttendanceRecord)
    (h : isActiveToday t r = true) : autoCloseRecord t r = r := by
  unfold isActiveToday at h
  cases hlo : r.logoutTime with
  | some v => simp [autoCloseRecord, hlo]
  | none =>
    rw [hlo] at h
    simp only [autoCloseRecord, hlo]
    cases hs : r.loginTime.atStartOfDay.getTime with
    | none => rw [hs] at h; rw [jsEq_none_left] at h; cases h
    | some x =>
      rw [hs] at h
      cases t with
      | none => cases h
      | some y =>
        simp only [jsEq, decide_eq_true_eq] at h
        subst h
        simp [jsLt, hs]

/-- `find?` on a `Pairwise`-ordered list returns an element related to
every later match: any other element satisfying the predicate is either
the found one or comes after it in the order. -/
theorem find?_pairwise_max {α : Type} {R : α → α → Prop} {p : α → Bool} :
    ∀ {l : List α}, l.Pairwise R → ∀ {s : α}, l.find? p = some s →
      ∀ r ∈ l, p r = true → r = s ∨ R s r := by
  intro l
  induction l with
  | nil => intro _ s hf; cases hf
  | cons x t ih =>
    intro hp s hf r hr hpr
    rw [List.pairwise_cons] at hp
    cases hpx : p x with
    | true =>
      rw [List.find?_cons_of_pos t hpx] at hf
      injection hf with hsx
      subst hsx
      rcases List.mem_cons.1 hr with rfl | hrt
      · exact Or.inl rfl
      · exact Or.inr (hp.1 r hrt)
    | false =>
      rw [List.find?_cons_of_neg t (by simp [hpx])] at hf
      rcases List.mem_cons.1 hr with rfl | hrt
      · rw [hpr] at hpx; cases hpx
      · exact ih hp.2 hf r hrt hpr

/-- An active-today test succeeding against midnight of `asOfDay` forces
an unclosed record with a valid login on exactly that day. -/
theorem isActiveToday_valid (asOfDay : ℤ) (r : AttendanceRecord)
    (h : isActiveToday (JSDate.valid asOfDay 0).getTime r = true) :
    r.logoutTime = none ∧ ∃ ms, r.loginTime = .valid asOfDay ms := by
  unfold isActiveToday at h
  cases hlo : r.logoutTime with
  | some v => rw [hlo] at h; cases h
  | none =>
    rw [hlo] at h
    refine ⟨rfl, ?_⟩
    cases hlt : r.loginTime with
    | invalid =>
      rw [hlt] at h
      rw [show JSDate.invalid.atStartOfDay.getTime = none from rfl, jsEq_none_left] at h
      cases h
    | valid d ms =>
      rw [hlt] at h
      simp only [JSDate.atStartOfDay, JSDate.getTime, jsEq, decide_eq_true_eq] at h
      have hd : d = asOfDay := by omega
      exact ⟨ms, by rw [hd]⟩

/-!
## Claim theorems: the normalizer
-/

/-- C5: the auto-close step closes every unclosed session whose login day
is strictly before asOf's day at 23:59:59.999 of its login day, and leaves
a session opened on asOf's own day unchanged; concretely, a session logged
in at 09:00 the previous day with no logout is normalized to a logout of
23:59:59.999 of that day and then classifies as
["Early Entry", "Overtime"]. -/
theorem autoClose_closes_stale_keeps_today (asOfDay : ℤ) (r : AttendanceRecord) (d : ℤ) (ms : ℕ)
    (hlogin : r.loginTime = .valid d ms) (hopen : r.logoutTime = none) :
    (d < asOfDay →
      autoCloseRecord (JSDate.valid asOfDay 0).getTime r =
        { r with logoutTime := some (.valid d 86399999) }) ∧
    (d = asOfDay → autoCloseRecord (JSDate.valid asOfDay 0).getTime r = r) ∧
    loadRecordsCore [staleOpenRecord] 100 (9 * 3600000) = ⟨[staleClosedRecord], none⟩ ∧
    getStatus (some staleClosedRecord.loginTime) staleClosedRecord.logoutTime =
      ["Early Entry", "Overtime"] := by
  refine ⟨?_, ?_, by decide, by decide⟩
  · intro hd
    simp only [autoCloseRecord, hopen, hlogin]
    split_ifs with h
    · simp [JSDate.atEndOfDay]
    · exfalso
      simp only [JSDate.atStartOfDay, JSDate.getTime, jsLt, decide_eq_true_eq] at h
      push_cast at h
      omega
  · intro hd
    subst hd
    simp only [autoCloseRecord, hopen, hlogin]
    split_ifs with h
    · exfalso
      simp only [JSDate.atStartOfDay, JSDate.getTime, jsLt, decide_eq_true_eq] at h
      omega
    · rfl

/-- C5 witness: the general clauses applied to the stale record of day 99
seen from day 100. -/
theorem autoClose_closes_stale_keeps_today_witness :
    autoCloseRecord (JSDate.valid 100 0).getTime staleOpenRecord =
      { staleOpenRecord with logoutTime := some (.valid 99 86399999) } :=
  (autoClose_closes_stale_keeps_today 100 staleOpenRecord 99 (9 * 3600000) rfl rfl).1
    (by decide)

/-- C3 counterexample: a raw list with two sessions of the subject still
open on asOf's day passes through `loadRecordsCore` with both sessions
still open on that day — the post-normalize count of open current-day
sessions is 2, not at most 1. -/
theorem normalize_two_open_today_counterexample :
    1 < ((loadRecordsCore twoOpenToday 0 (10 * 3600000)).sessions.filter
      (fun s => s.logoutTime.isNone &&
        jsEq s.loginTime.atStartOfDay.getTime (JSDate.valid 0 0).getTime)).length := by
  decide

/-- C3 (amended): after `loadRecordsCore`, no session with absent
`logoutTime` has a login day strictly before asOf's day (stale sessions
are auto-closed and invalid logins dropped by retention), but the number
of open sessions on asOf's own day is not bounded. -/
theorem normalize_no_stale_open_sessions (input : List AttendanceRecord) (asOfDay : ℤ)
    (asOfMs : ℕ) (s : AttendanceRecord)
    (hs : s ∈ (loadRecordsCore input asOfDay asOfMs).sessions)
    (hopen : s.logoutTime = none) :
    ∃ d ms, s.loginTime = .valid d ms ∧ asOfDay ≤ d := by
  have hs' : s ∈ (input.map (autoCloseRecord (JSDate.valid asOfDay 0).getTime)).filter
      (fun r => jsGt r.loginTime.getTime (JSDate.valid (asOfDay - RETENTION_DAYS) asOfMs).getTime) := by
    simp only [loadRecordsCore] at hs
    exact mem_sortByLoginDesc.1 hs
  rw [List.mem_filter] at hs'
  obtain ⟨hmem, hret⟩ := hs'
  obtain ⟨r, hr, hrs⟩ := List.mem_map.1 hmem
  cases hlt : s.loginTime with
  | invalid =>
    rw [hlt] at hret
    rw [show JSDate.invalid.getTime = none from rfl] at hret
    cases hret
  | valid d ms =>
    refine ⟨d, ms, rfl, ?_⟩
    rcases hlo : r.logoutTime with _ | v
    · simp only [autoCloseRecord, hlo] at hrs
      by_cases h : jsLt r.loginTime.atStartOfDay.getTime (JSDate.valid asOfDay 0).getTime = true
      · rw [if_pos h] at hrs
        have hc := congrArg AttendanceRecord.logoutTime hrs
        rw [hopen] at hc
        cases hc
      · rw [if_neg h] at hrs
        subst hrs
        rw [hlt] at h
        simp only [JSDate.atStartOfDay, JSDate.getTime, jsLt, decide_eq_true_eq] at h
        push_cast at h
        omega
    · simp only [autoCloseRecord, hlo] at hrs
      subst hrs
      rw [hopen] at hlo
      cases hlo

/-- C3 witness: the amended theorem applied to the morning open record of
the two-open-sessions input. -/
theorem normalize_no_stale_open_sessions_witness :
    ∃ d ms, morningOpenRecord.loginTime = .valid d ms ∧ (0 : ℤ) ≤ d :=
  normalize_no_stale_open_sessions twoOpenToday 0 0 morningOpenRecord (by decide) (by decide)

/-- C4 counterexample: with the rows in the stored (descending) order, the
two-open-sessions input yields the *later*-logged-in session (id "B",
login 10:00) as active session, although the earlier one (id "A", login
09:00) is also open today — the earliest-logged-in session is not the one
picked, and no anomaly is reported. -/
theorem normalize_active_not_earliest_counterexample :
    (loadRecordsCore twoOpenToday 0 (10 * 3600000)).activeSessionId =
      some laterOpenRecord.id ∧
    laterOpenRecord.id ≠ morningOpenRecord.id ∧
    morningOpenRecord ∈ twoOpenToday ∧
    isActiveToday (JSDate.valid 0 0).getTime morningOpenRecord = true ∧
    jsLt morningOpenRecord.loginTime.getTime laterOpenRecord.loginTime.getTime = true := by
  decide

/-- C4 (amended): on rows sorted descending by login time (as the query
delivers them), the normalizer takes the *first* open current-day session
in stored order — the one with the greatest login time — as the active
session; the remaining open current-day sessions are not reported as an
anomaly but simply remain, unchanged, in the output sessions. -/
theorem normalize_active_is_latest_of_desc_order
    (input : List AttendanceRecord) (asOfDay : ℤ) (asOfMs : ℕ)
    (hms : asOfMs < 86400000)
    (hsorted : input.Pairwise (fun a b => loginDescOrder a b = true))
    (r0 : AttendanceRecord) (hr0 : r0 ∈ input)
    (hr0open : isActiveToday (JSDate.valid asOfDay 0).getTime r0 = true) :
    ∃ s ∈ input, isActiveToday (JSDate.valid asOfDay 0).getTime s = true ∧
      (loadRecordsCore input asOfDay asOfMs).activeSessionId = some s.id ∧
      (∀ r ∈ input, isActiveToday (JSDate.valid asOfDay 0).getTime r = true →
        ∀ ts tr, s.loginTime.getTime = some ts → r.loginTime.getTime = some tr → tr ≤ ts) ∧
      (∀ r ∈ input, isActiveToday (JSDate.valid asOfDay 0).getTime r = true →
        r ∈ (loadRecordsCore input asOfDay asOfMs).sessions) := by
  cases hfind : input.find? (isActiveToday (JSDate.valid asOfDay 0).getTime) with
  | none =>
    exfalso
    have hnone := List.find?_eq_none.1 hfind r0 hr0
    exact hnone hr0open
  | some s =>
    have hps : isActiveToday (JSDate.valid asOfDay 0).getTime s = true := List.find?_some hfind
    have hsmem : s ∈ input := List.mem_of_find?_eq_some hfind
    have hcomp :
        (isActiveToday (JSDate.valid asOfDay 0).getTime ∘
          autoCloseRecord (JSDate.valid asOfDay 0).getTime) =
          isActiveToday (JSDate.valid asOfDay 0).getTime :=
      funext fun r => isActiveToday_autoCloseRecord _ r
    refine ⟨s, hsmem, hps, ?_, ?_, ?_⟩
    · simp only [loadRecordsCore]
      rw [List.find?_map, hcomp, hfind]
      simp [autoCloseRecord_of_active _ s hps]
    · intro r hr hpr ts tr hts htr
      rcases find?_pairwise_max hsorted hfind r hr hpr with rfl | hR
      · rw [hts] at htr
        injection htr with he
        omega
      · unfold loginDescOrder at hR
        rw [hts, htr] at hR
        simpa using hR
    · intro r hr hpr
      obtain ⟨hropen, ms', hlogin⟩ := isActiveToday_valid asOfDay r hpr
      simp only [loadRecordsCore]
      rw [mem_sortByLoginDesc, List.mem_filter]
      refine ⟨List.mem_map.2 ⟨r, hr, autoCloseRecord_of_active _ r hpr⟩, ?_⟩
      rw [hlogin]
      simp only [JSDate.getTime, jsGt, RETENTION_DAYS, decide_eq_true_eq]
      omega

/-- C4 witness: the amended theorem applied to the descending-ordered
two-open-sessions input. -/
theorem normalize_active_is_latest_witness :
    ∃ s ∈ twoOpenToday, isActiveToday (JSDate.valid 0 0).getTime s = true ∧
      (loadRecordsCore twoOpenToday 0 0).activeSessionId = some s.id ∧
      (∀ r ∈ twoOpenToday, isActiveToday (JSDate.valid 0 0).getTime r = true →
        ∀ ts tr, s.loginTime.getTime = some ts → r.loginTime.getTime = some tr → tr ≤ ts) ∧
      (∀ r ∈ twoOpenToday, isActiveToday (JSDate.valid 0 0).getTime r = true →
        r ∈ (loadRecordsCore twoOpenToday 0 0).sessions) :=
  normalize_active_is_latest_of_desc_order twoOpenToday 0 0 (by decide) (by decide)
    morningOpenRecord (by decide) (by decide)

/-!
## Claim theorems: the compliance monitor
-/

/-- C8: when the subject has no unclosed previous-day sessions, at least
three sessions classified Late among the records of the trailing 7-day
window, and no session classified Early Leave there, the monitor emits
exactly one warning, of the excessive-lateness kind, with the late count
embedded in its message — and no excessive-early-leave warning. -/
theorem compliance_excessive_late (userRecords : List AttendanceRecord) (userName : String)
    (asOfDay : ℤ)
    (hUnclosed :
      (userRecords.filter (isUnclosedOld (JSDate.valid asOfDay 0).getTime)).length = 0)
    (hLate : 3 ≤ ((userRecords.filter
        (fun r => jsGe r.loginTime.getTime (JSDate.valid (asOfDay - 7) 0).getTime)).filter
        (fun r => (getStatus (some r.loginTime) r.logoutTime).contains "Late")).length)
    (hEarly : ((userRecords.filter
        (fun r => jsGe r.loginTime.getTime (JSDate.valid (asOfDay - 7) 0).getTime)).filter
        (fun r => (getStatus (some r.loginTime) r.logoutTime).contains "Early Leave")).length = 0) :
    checkAttendanceCompliance userRecords userName asOfDay =
      [⟨WarningType.excessive_late,
        "Hi " ++ userName ++ ", you have " ++
          ("late " ++ toString ((userRecords.filter
            (fun r => jsGe r.loginTime.getTime (JSDate.valid (asOfDay - 7) 0).getTime)).filter
            (fun r => (getStatus (some r.loginTime) r.logoutTime).contains "Late")).length ++
            " times this week") ++ " - please maintain proper attendance."⟩] := by
  simp only [checkAttendanceCompliance]
  rw [hUnclosed, hEarly, if_pos hLate]
  simp [String.intercalate, String.intercalate.go]

/-- C8 witness: the theorem applied to three Late sessions of the last
week with Overtime logouts and no unclosed sessions. -/
theorem compliance_excessive_late_witness :
    checkAttendanceCompliance lateWeekRecords "Bob" 10 =
      [⟨WarningType.excessive_late,
        "Hi Bob, you have late 3 times this week - please maintain proper attendance."⟩] :=
  (compliance_excessive_late lateWeekRecords "Bob" 10 (by decide) (by decide)
    (by decide)).trans (by decide)
